import Mathlib

/-!
Verification of the statistic-derivation pipeline of the DIII XC Nationals
repository (scripts/step3_compile_data.py and scripts/2025_nattys.py).

The Python pipeline is shallowly embedded: times are rationals, calendar
dates are proleptic-Gregorian ordinals (the value of Python's
`date.toordinal`), raw JSON-ish values are inductive types with explicit
constructors for absent / malformed inputs, and the one code path that can
raise a Python exception (`season.get(...)` on a non-dict season entry in
`gather_season_stats`) is modelled with `Except`.
-/

/-! ## Calendar dates as proleptic-Gregorian ordinals -/

/-- Leap-year test of the Gregorian calendar. -/
def isLeapYear (y : Nat) : Bool :=
  (y % 4 == 0 && y % 100 != 0) || (y % 400 == 0)

/-- Days in the months January .. December of a common year, cumulative:
`cumMonthDays m` is the number of days strictly before month `m+1`. -/
def cumMonthDays : Nat → Nat
  | 0 => 0
  | 1 => 31
  | 2 => 59
  | 3 => 90
  | 4 => 120
  | 5 => 151
  | 6 => 181
  | 7 => 212
  | 8 => 243
  | 9 => 273
  | 10 => 304
  | 11 => 334
  | _ => 365

/-- Number of days in all years strictly before year `y` (proleptic Gregorian,
as in Python's `datetime.date.toordinal`). -/
def daysBeforeYear (y : Nat) : Nat :=
  365 * (y - 1) + ((y - 1) / 4 + (y - 1) / 400) - (y - 1) / 100

/-- Python's `date(y, m, d).toordinal()`: day number of a calendar date in the
proleptic Gregorian calendar, with 0001-01-01 having ordinal 1. -/
def toOrdinal (y m d : Nat) : Int :=
  Int.ofNat (daysBeforeYear y + cumMonthDays (m - 1) +
    (if 2 < m && isLeapYear y then 1 else 0) + d)

/-! ## Strings: lower-casing, whitespace normalisation, substring search -/

/-- Python's `str.lower()` (restricted to the character-wise case mapping). -/
def lowerStr (s : String) : String :=
  ⟨s.data.map Char.toLower⟩

/-- Boolean test that `pat` is a prefix of `l`. -/
def prefOf : List Char → List Char → Bool
  | [], _ => true
  | _ :: _, [] => false
  | a :: as, b :: bs => decide (a = b) && prefOf as bs

/-- Boolean test that `pat` occurs as a contiguous substring of `l`
(Python's `pat in s`). -/
def hasSubList (pat : List Char) : List Char → Bool
  | [] => decide (pat = [])
  | c :: rest => prefOf pat (c :: rest) || hasSubList pat rest

/-- Python's `pat in s` on strings. -/
def strContainsSub (s pat : String) : Bool :=
  hasSubList pat.data s.data

/-- Splitting a character list on runs of whitespace, dropping empty pieces:
Python's `str.split()` with no argument. -/
def splitWsAux (acc : List Char) : List Char → List (List Char)
  | [] => if acc.isEmpty then [] else [acc.reverse]
  | c :: rest =>
    if c.isWhitespace then
      if acc.isEmpty then splitWsAux [] rest
      else acc.reverse :: splitWsAux [] rest
    else splitWsAux (c :: acc) rest

/-- Joining words with single spaces: Python's `' '.join(words)`. -/
def joinSpace : List (List Char) → List Char
  | [] => []
  | [w] => w
  | w :: ws => w ++ ' ' :: joinSpace ws

/-- `' '.join(str(sec).lower().split())`: lower-case and collapse internal
whitespace runs to single spaces, trimming the ends. -/
def normalizeSection (s : String) : String :=
  ⟨joinSpace (splitWsAux [] (lowerStr s).data)⟩

/-! ## Rounding to six decimal places (Python `round(x, 6)`) -/

/-- Round-half-to-even on rationals, Python's `round` to an integer. -/
def roundHalfEven (q : ℚ) : ℤ :=
  let f := ⌊q⌋
  let r := q - (f : ℚ)
  if r < 1/2 then f
  else if 1/2 < r then f + 1
  else if f % 2 = 0 then f else f + 1

/-- Python's `round(x, 6)`. -/
def round6 (q : ℚ) : ℚ :=
  (roundHalfEven (q * 1000000) : ℚ) / 1000000

/-! ## Raw input data model

The scripts consume JSON decoded into Python dicts/lists.  The pieces the
statistics pipeline reads are modelled with explicit constructors for the
absent and malformed shapes each `.get` chain distinguishes. -/

/-- The raw `time` field of a performance entry, as seen by
`float(time) if time is not None else None` under `try/except`. -/
inductive TimeVal where
  /-- Python `None`. -/
  | absent
  /-- A numeric value (int/float); `float` returns it unchanged. -/
  | num (q : ℚ)
  /-- A string that `float` parses successfully to `q`. -/
  | strNum (q : ℚ)
  /-- A value on which `float` raises (unparseable string, list, ...). -/
  | unparseable
deriving DecidableEq

/-- A raw date field: Python `None`/empty (falsy), a string `parse_date`
accepts (carrying its ordinal), or a truthy string `parse_date` rejects. -/
inductive DateStr where
  | absent
  | ok (d : ℤ)
  | bad
deriving DecidableEq

/-- `parse_date`: absent/falsy and unparseable inputs give `None`. -/
def parse_date : DateStr → Option ℤ
  | .absent => none
  | .ok d => some d
  | .bad => none

/-- The nested `race` descriptor of a raw performance entry. -/
structure RawRace where
  meet_name : Option String
  meet : Option String
  name : Option String
  sectionLabel : Option String
  date : DateStr
deriving DecidableEq

/-- The `race` dict used when `p.get('race')` is absent or not a dict:
every lookup on `{}` is falsy. -/
def emptyRace : RawRace :=
  ⟨none, none, none, none, .absent⟩

/-- A raw performance entry of `season_xc_performances`. -/
structure RawPerf where
  time : TimeVal
  place : Option ℤ
  race : Option RawRace
  sectionLabel : Option String
  date : DateStr
deriving DecidableEq

/-- The `season` tag of a season block: a dict carrying an optional integer
`year`, a bare int, or anything else (including absent). -/
inductive SeasonTag where
  | dictYear (y : Option ℤ)
  | intYear (y : ℤ)
  | other
deriving DecidableEq

/-- A season block: its `season` tag and its `season_xc_performances` list
(`none` models an absent or non-list field). -/
structure SeasonBlock where
  seasonTag : SeasonTag
  perfs : Option (List RawPerf)
deriving DecidableEq

/-- An entry of the `season_ratings` list: a well-formed dict block, or a
non-dict value (on which `season.get('season')` raises `AttributeError`,
while `extract_xc_performances_from_season` returns `[]`). -/
inductive SeasonBlockV where
  | notDict
  | block (b : SeasonBlock)
deriving DecidableEq

/-- An athlete history: a non-dict value (so `history.get` is skipped and
`season_ratings` is taken as `None`), or a dict with an optional
`season_ratings` list. -/
inductive HistoryV where
  | notDict
  | dict (season_ratings : Option (List SeasonBlockV))
deriving DecidableEq

/-- `history.get('season_ratings') if isinstance(history, dict) else None`. -/
def ratingsOf : HistoryV → Option (List SeasonBlockV)
  | .notDict => none
  | .dict r => r

/-- A normalized performance record produced by the Performance Normalizer. -/
structure Perf where
  time : Option ℚ
  date : Option ℤ
  sectionLabel : String
  meet_name : String
  place : Option ℤ
deriving DecidableEq

/-! ## Performance Normalizer (`extract_xc_performances_from_season`) -/

/-- Python's `a or b` for an optional string against a string default:
`None` and `""` are falsy. -/
def pyOrStr (a : Option String) (b : String) : String :=
  match a with
  | none => b
  | some s => if s = "" then b else s

/-- `float(time) if time is not None else None` under `try/except`. -/
def pyFloat : TimeVal → Option ℚ
  | .absent => none
  | .num q => some q
  | .strNum q => some q
  | .unparseable => none

/-- Normalize one raw entry of `season_xc_performances`. -/
def normalizeRawPerf (p : RawPerf) : Perf :=
  let race := p.race.getD emptyRace
  { time := pyFloat p.time
    date := parse_date (match race.date with
      | .absent => p.date
      | rd => rd)
    sectionLabel := pyOrStr race.sectionLabel (pyOrStr p.sectionLabel "")
    meet_name := pyOrStr race.meet_name (pyOrStr race.meet (pyOrStr race.name ""))
    place := p.place }

/-- `extract_xc_performances_from_season`: a non-dict block or an
absent/non-list performance list yields `[]`; otherwise each raw entry is
normalized in order. -/
def extract_xc_performances_from_season : SeasonBlockV → List Perf
  | .notDict => []
  | .block b =>
    match b.perfs with
    | none => []
    | some l => l.map normalizeRawPerf

/-! ## Distance Classifier (`looks_like_8k`) -/

/-- `looks_like_8k(section)`: falsy (absent or empty) labels are rejected,
otherwise the lower-cased label is searched for `"8k"` or `"8000"`. -/
def looks_like_8k : Option String → Bool
  | none => false
  | some s =>
    if s = "" then false
    else
      strContainsSub (lowerStr s) "8k" || strContainsSub (lowerStr s) "8000"

/-! ## Deduplicator (`dedupe_performances`) -/

/-- The dedup key of a performance: `(date_key, sec_key, time_key)`.
The date component models the ISO string (`'nodate'` when absent) through
the injective ordinal encoding; the time component is rounded to six
decimal places. -/
def dkey (p : Perf) : Option ℤ × String × Option ℚ :=
  ( p.date
  , if p.sectionLabel = "" then "" else normalizeSection p.sectionLabel
  , p.time.map round6 )

/-- The `seen`-set loop of `dedupe_performances`. -/
def dedupeAux (seen : List (Option ℤ × String × Option ℚ)) :
    List Perf → List Perf
  | [] => []
  | p :: rest =>
    if dkey p ∈ seen then dedupeAux seen rest
    else p :: dedupeAux (dkey p :: seen) rest

/-- `dedupe_performances`: keep, in order, the first record of each key. -/
def dedupe_performances (l : List Perf) : List Perf :=
  dedupeAux [] l

/-! ## Statistics Engine -/

/-- `np.nanmin` over a possibly empty list of (NaN-free) rationals, as an
`Option`: the guard `if not times: return None` is folded in. -/
def listMin : List ℚ → Option ℚ
  | [] => none
  | t :: rest => some (rest.foldl min t)

/-- `max(candidates)` over a possibly empty list of date ordinals. -/
def listMax : List ℤ → Option ℤ
  | [] => none
  | d :: rest => some (rest.foldl max d)

/-- `gather_lifetime_pr_before_date`: minimum championship-distance time over
all seasons, skipping records with absent time or non-8k section; when both
the cutoff and the record's date are present, the record is kept only when
`date < cutoff` (a record with an absent date is kept). -/
def gather_lifetime_pr_before_date (history : HistoryV) (cutoff : Option ℤ) :
    Option ℚ :=
  match ratingsOf history with
  | none => none
  | some blocks =>
    if blocks.isEmpty then none
    else
      listMin (blocks.flatMap fun sb =>
        (extract_xc_performances_from_season sb).filterMap fun p =>
          match p.time with
          | none => none
          | some t =>
            if looks_like_8k (some p.sectionLabel) then
              match cutoff, p.date with
              | some c, some d => if d < c then some t else none
              | _, _ => some t
            else none)

/-- The result record of `gather_season_stats`. -/
structure SeasonStats where
  num_races : ℕ
  sr_time : Option ℚ
  consistency : Option ℝ
  days_since_season_pr : Option ℤ

/-- The `year_block` value read off a well-formed season tag: the `year`
field of a dict tag, a bare int, and `None` otherwise. -/
def tagYear : SeasonTag → Option ℤ
  | .dictYear y => y
  | .intYear y => some y
  | .other => none

/-- The year tag a season block contributes, or an `AttributeError` when the
entry is not a dict (`season.get('season')` on a non-dict raises). -/
def yearTagOf : SeasonBlockV → Except String (Option ℤ)
  | .notDict => .error "AttributeError"
  | .block b => .ok (tagYear b.seasonTag)

/-- The per-record cutoff filter of `gather_season_stats`: drop a record only
when both the nationals date and the record date are present and
`date >= nat_date`. -/
def keepBeforeNatDate (nat_date : Option ℤ) (p : Perf) : Bool :=
  match nat_date, p.date with
  | some nd, some d => decide (d < nd)
  | _, _ => true

/-- The season-collection loop of `gather_season_stats`: pool the normalized,
cutoff-filtered performances of every block whose year tag equals
`nat_year`, in block order, propagating the `AttributeError` a non-dict
entry raises. -/
def collectSeasonPerfs (nat_year : ℤ) (nat_date : Option ℤ) :
    List SeasonBlockV → Except String (List Perf)
  | [] => .ok []
  | sb :: rest =>
    match yearTagOf sb with
    | .error e => .error e
    | .ok y =>
      let here :=
        if y = some nat_year then
          (extract_xc_performances_from_season sb).filter
            (keepBeforeNatDate nat_date)
        else []
      match collectSeasonPerfs nat_year nat_date rest with
      | .error e => .error e
      | .ok there => .ok (here ++ there)

/-- The championship-distance, time-present restriction of the deduplicated
season performances (`season_8k`). -/
def season8k (uniq : List Perf) : List Perf :=
  uniq.filter fun p => p.time.isSome && looks_like_8k (some p.sectionLabel)

/-- The times of the restricted records, in order. -/
def times8k (uniq : List Perf) : List ℚ :=
  (season8k uniq).filterMap fun p => p.time

/-- Mean of a list of rationals (`np.mean`; division by zero yields 0 for the
empty list, which the callers never hit). -/
def listMean (l : List ℚ) : ℚ :=
  l.sum / l.length

/-- Population variance (`np.std(arr, ddof=0)` squared): mean squared
deviation from the mean. -/
def popVar (l : List ℚ) : ℚ :=
  ((l.map fun t => (t - listMean l) ^ 2).sum) / l.length

/-- Population standard deviation, `float(np.std(arr, ddof=0))`. -/
noncomputable def popStd (l : List ℚ) : ℝ :=
  Real.sqrt ((popVar l : ℚ) : ℝ)

/-- The present dates of the restricted records whose time equals `sr`
(the `candidates` list of `gather_season_stats`). -/
def srDates (l8 : List Perf) (sr : ℚ) : List ℤ :=
  l8.filterMap fun p => if p.time = some sr then p.date else none

/-- The `days_since` computation of `gather_season_stats`: present exactly
when the season record, the nationals date, and a dated occurrence of the
record time all exist; then the day difference from the latest such date. -/
def daysSinceOf (uniq : List Perf) (nat_date : Option ℤ) : Option ℤ :=
  match listMin (times8k uniq), nat_date with
  | some sr, some nd =>
    match listMax (srDates (season8k uniq) sr) with
    | some best => some (nd - best)
    | none => none
  | _, _ => none

/-- The statistics computed from the deduplicated season performance list:
race count, season record, consistency, days since the season record. -/
noncomputable def statsOfPerfs (uniq : List Perf) (nat_date : Option ℤ) :
    SeasonStats :=
  { num_races := uniq.length
    sr_time := listMin (times8k uniq)
    consistency :=
      if 2 ≤ (season8k uniq).length then some (popStd (times8k uniq))
      else none
    days_since_season_pr := daysSinceOf uniq nat_date }

/-- `gather_season_stats`: the degenerate record when `season_ratings` is
absent or empty; otherwise the stats of the pooled, deduplicated season
performances — or the `AttributeError` raised on a non-dict season entry. -/
noncomputable def gather_season_stats (history : HistoryV) (nat_year : ℤ)
    (nat_date : Option ℤ) : Except String SeasonStats :=
  match ratingsOf history with
  | none => .ok ⟨0, none, none, none⟩
  | some blocks =>
    if blocks.isEmpty then .ok ⟨0, none, none, none⟩
    else
      Except.map
        (fun sp => statsOfPerfs (dedupe_performances sp) nat_date)
        (collectSeasonPerfs nat_year nat_date blocks)

/-! ## Accolade Resolver -/

/-- A nationals placement value: absent, a Python int, or some other value
(such as the string "DNF"). -/
inductive PlaceVal where
  | absent
  | intP (n : ℤ)
  | other
deriving DecidableEq

/-- `1 if (isinstance(nat_place, int) and nat_place <= 40) else 0`. -/
def all_american : PlaceVal → ℕ
  | .intP n => if n ≤ 40 then 1 else 0
  | _ => 0

/-! ## Shared lemmas -/

theorem foldl_min_mem (l : List ℚ) : ∀ a : ℚ, l.foldl min a ∈ a :: l := by
  induction l with
  | nil => intro a; simp
  | cons b l ih =>
    intro a
    have h := ih (min a b)
    show List.foldl min (min a b) l ∈ a :: b :: l
    rcases List.mem_cons.mp h with h1 | h1
    · rcases min_choice a b with h2 | h2
      · rw [h1, h2]; exact List.mem_cons_self _ _
      · rw [h1, h2]; exact List.mem_cons.mpr (Or.inr (List.mem_cons_self _ _))
    · exact List.mem_cons.mpr (Or.inr (List.mem_cons.mpr (Or.inr h1)))

theorem foldl_min_le (l : List ℚ) :
    ∀ a : ℚ, l.foldl min a ≤ a ∧ ∀ x ∈ l, l.foldl min a ≤ x := by
  induction l with
  | nil => intro a; simp
  | cons b l ih =>
    intro a
    obtain ⟨h1, h2⟩ := ih (min a b)
    refine ⟨le_trans h1 (min_le_left a b), ?_⟩
    intro x hx
    rcases List.mem_cons.mp hx with rfl | hx
    · exact le_trans h1 (min_le_right a x)
    · exact h2 x hx

theorem listMin_eq_some (l : List ℚ) (t : ℚ) (h : listMin l = some t) :
    t ∈ l ∧ ∀ x ∈ l, t ≤ x := by
  cases l with
  | nil => simp [listMin] at h
  | cons a rest =>
    simp only [listMin, Option.some.injEq] at h
    subst h
    exact ⟨foldl_min_mem rest a, fun x hx => by
      rcases List.mem_cons.mp hx with rfl | hx
      · exact (foldl_min_le rest x).1
      · exact (foldl_min_le rest a).2 x hx⟩

theorem listMin_eq_none (l : List ℚ) : listMin l = none ↔ l = [] := by
  cases l <;> simp [listMin]

theorem foldl_max_mem (l : List ℤ) : ∀ a : ℤ, l.foldl max a ∈ a :: l := by
  induction l with
  | nil => intro a; simp
  | cons b l ih =>
    intro a
    have h := ih (max a b)
    show List.foldl max (max a b) l ∈ a :: b :: l
    rcases List.mem_cons.mp h with h1 | h1
    · rcases max_choice a b with h2 | h2
      · rw [h1, h2]; exact List.mem_cons_self _ _
      · rw [h1, h2]; exact List.mem_cons.mpr (Or.inr (List.mem_cons_self _ _))
    · exact List.mem_cons.mpr (Or.inr (List.mem_cons.mpr (Or.inr h1)))

theorem foldl_max_ge (l : List ℤ) :
    ∀ a : ℤ, a ≤ l.foldl max a ∧ ∀ x ∈ l, x ≤ l.foldl max a := by
  induction l with
  | nil => intro a; simp
  | cons b l ih =>
    intro a
    obtain ⟨h1, h2⟩ := ih (max a b)
    refine ⟨le_trans (le_max_left a b) h1, ?_⟩
    intro x hx
    rcases List.mem_cons.mp hx with rfl | hx
    · exact le_trans (le_max_right a x) h1
    · exact h2 x hx

theorem listMax_eq_some (l : List ℤ) (b : ℤ) (h : listMax l = some b) :
    b ∈ l ∧ ∀ x ∈ l, x ≤ b := by
  cases l with
  | nil => simp [listMax] at h
  | cons a rest =>
    simp only [listMax, Option.some.injEq] at h
    subst h
    exact ⟨foldl_max_mem rest a, fun x hx => by
      rcases List.mem_cons.mp hx with rfl | hx
      · exact (foldl_max_ge rest x).1
      · exact (foldl_max_ge rest a).2 x hx⟩

theorem listMax_eq_none (l : List ℤ) : listMax l = none ↔ l = [] := by
  cases l <;> simp [listMax]

/-! ## Characterising the lifetime-PR computation -/

/-- Every normalized performance of every season block of a history, in
order (the records `gather_lifetime_pr_before_date` iterates over). -/
def allPerfs (history : HistoryV) : List Perf :=
  match ratingsOf history with
  | none => []
  | some blocks => blocks.flatMap extract_xc_performances_from_season

/-- The per-record selection of `gather_lifetime_pr_before_date`. -/
def prFilter (cutoff : Option ℤ) (p : Perf) : Option ℚ :=
  match p.time with
  | none => none
  | some t =>
    if looks_like_8k (some p.sectionLabel) then
      match cutoff, p.date with
      | some c, some d => if d < c then some t else none
      | _, _ => some t
    else none

/-- The list of candidate lifetime-PR times of a history. -/
def prTimesOf (history : HistoryV) (cutoff : Option ℤ) : List ℚ :=
  (allPerfs history).filterMap (prFilter cutoff)

theorem filterMap_flatMap_comm {α β γ : Type} (l : List α) (g : α → List β)
    (f : β → Option γ) :
    (l.flatMap g).filterMap f = l.flatMap fun a => (g a).filterMap f := by
  induction l with
  | nil => rfl
  | cons a l ih =>
    simp [List.flatMap_cons, List.filterMap_append, ih]

theorem gather_lifetime_eq_listMin (history : HistoryV) (cutoff : Option ℤ) :
    gather_lifetime_pr_before_date history cutoff =
      listMin (prTimesOf history cutoff) := by
  unfold gather_lifetime_pr_before_date prTimesOf allPerfs
  cases hr : ratingsOf history with
  | none => rfl
  | some blocks =>
    by_cases hb : blocks.isEmpty
    · rw [List.isEmpty_iff] at hb
      subst hb
      simp [listMin]
    · simp only [hb, if_false]
      rw [filterMap_flatMap_comm]
      rfl

/-- The records the lifetime-PR computation actually keeps: time present,
championship distance, and — when the record is dated — dated strictly
before the cutoff.  A record with an absent date is kept. -/
def QualifiesPR (cutoff : ℤ) (p : Perf) (t : ℚ) : Prop :=
  p.time = some t ∧ looks_like_8k (some p.sectionLabel) = true ∧
    (p.date = none ∨ ∃ d, p.date = some d ∧ d < cutoff)

theorem prFilter_eq_some_iff (c : ℤ) (p : Perf) (t : ℚ) :
    prFilter (some c) p = some t ↔ QualifiesPR c p t := by
  unfold prFilter QualifiesPR
  cases hpt : p.time with
  | none => simp [hpt]
  | some t0 =>
    cases hd : p.date with
    | none =>
      by_cases h8 : looks_like_8k (some p.sectionLabel) <;>
        simp [h8, hpt, hd, eq_comm]
    | some d =>
      by_cases h8 : looks_like_8k (some p.sectionLabel)
      · by_cases hlt : d < c <;> simp [h8, hpt, hd, hlt, eq_comm]
      · simp [h8, hpt, hd]

/-- The lifetime-PR rule as the specification words it, for comparison with
the code: keep only championship-distance, time-present records whose `date`
is present AND strictly before the cutoff, so that a record with an absent
date is excluded; return the minimum of the remaining times, or absent. -/
def lifetimePRSpecRule (history : HistoryV) (c : ℤ) : Option ℚ :=
  listMin ((allPerfs history).filterMap fun p =>
    match p.time, p.date with
    | some t, some d =>
      if looks_like_8k (some p.sectionLabel) && decide (d < c) then some t
      else none
    | _, _ => none)

/-- A history holding a single dateless championship-distance record. -/
def historyDateless : HistoryV :=
  .dict (some [.block ⟨.other, some
    [⟨.num 1000, none, none, some "8k", .absent⟩]⟩])

/-- C1, counterexample: with a present cutoff, the code keeps a record whose
date is absent — `gather_lifetime_pr_before_date` returns its time `1000`
where the claimed rule (dateless records excluded) returns absent. -/
theorem lifetime_pr_dateless_included :
    gather_lifetime_pr_before_date historyDateless
        (some (toOrdinal 2024 11 1)) = some 1000 ∧
      lifetimePRSpecRule historyDateless (toOrdinal 2024 11 1) = none :=
  ⟨rfl, rfl⟩

/-- C1 (amended): with a present cutoff,
`gather_lifetime_pr_before_date` considers the championship-distance,
time-present records whose date is either absent or strictly before the
cutoff; the result is the minimum time of that set, and it is absent exactly
when the set is empty. -/
theorem lifetime_pr_characterization (history : HistoryV) (c : ℤ) :
    (∀ t : ℚ, gather_lifetime_pr_before_date history (some c) = some t →
      (∃ p ∈ allPerfs history, QualifiesPR c p t) ∧
        ∀ p ∈ allPerfs history, ∀ u : ℚ, QualifiesPR c p u → t ≤ u) ∧
    (gather_lifetime_pr_before_date history (some c) = none ↔
      ∀ p ∈ allPerfs history, ∀ u : ℚ, ¬ QualifiesPR c p u) := by
  have hg := gather_lifetime_eq_listMin history (some c)
  simp only [prTimesOf] at hg
  constructor
  · intro t ht
    rw [hg] at ht
    obtain ⟨hmem, hle⟩ := listMin_eq_some _ _ ht
    constructor
    · rcases List.mem_filterMap.mp hmem with ⟨p, hp, hf⟩
      exact ⟨p, hp, (prFilter_eq_some_iff c p t).mp hf⟩
    · intro p hp u hq
      exact hle u
        (List.mem_filterMap.mpr ⟨p, hp, (prFilter_eq_some_iff c p u).mpr hq⟩)
  · rw [hg, listMin_eq_none]
    constructor
    · intro hnil p hp u hq
      have hmem : u ∈ (allPerfs history).filterMap (prFilter (some c)) :=
        List.mem_filterMap.mpr ⟨p, hp, (prFilter_eq_some_iff c p u).mpr hq⟩
      rw [hnil] at hmem
      simp at hmem
    · intro hno
      by_contra hne
      obtain ⟨u, hu⟩ := List.exists_mem_of_ne_nil _ hne
      rcases List.mem_filterMap.mp hu with ⟨p, hp, hf⟩
      exact hno p hp u ((prFilter_eq_some_iff c p u).mp hf)

/-- Witness for the amended C1 theorem at a concrete history and cutoff. -/
theorem lifetime_pr_characterization_witness :
    (∃ p ∈ allPerfs historyDateless,
        QualifiesPR (toOrdinal 2024 11 1) p 1000) ∧
      ∀ p ∈ allPerfs historyDateless, ∀ u : ℚ,
        QualifiesPR (toOrdinal 2024 11 1) p u → 1000 ≤ u :=
  (lifetime_pr_characterization historyDateless (toOrdinal 2024 11 1)).1
    1000 rfl

/-! ## The end-to-end season-stats scenario -/

/-- The end-to-end scenario history: three 8k performances in the 2024
season, dated 2024-09-01 (1600s), 2024-10-15 (1550s) and 2024-11-20
(1500s, the nationals date). -/
def historyScenario : HistoryV :=
  .dict (some [.block ⟨.dictYear (some 2024), some
    [⟨.num 1600, none, none, some "8k", .ok (toOrdinal 2024 9 1)⟩,
     ⟨.num 1550, none, none, some "8k", .ok (toOrdinal 2024 10 15)⟩,
     ⟨.num 1500, none, none, some "8k", .ok (toOrdinal 2024 11 20)⟩]⟩])

theorem popVar_scenario : popVar [1600, 1550] = 625 := by
  simp [popVar, listMean]
  norm_num

theorem popStd_scenario : popStd [1600, 1550] = 25 := by
  unfold popStd
  rw [popVar_scenario]
  rw [show ((625 : ℚ) : ℝ) = (25 : ℝ) ^ 2 by norm_num]
  exact Real.sqrt_sq (by norm_num)

/-- C2: on the scenario history with target year 2024 and cutoff 2024-11-20,
`gather_season_stats` excludes the nationals-day race and returns season
record 1550, race count 2, days-since-season-record 36 and consistency 25. -/
theorem season_stats_scenario :
    gather_season_stats historyScenario 2024 (some (toOrdinal 2024 11 20)) =
      .ok ⟨2, some 1550, some 25, some 36⟩ := by
  have h1 : gather_season_stats historyScenario 2024
      (some (toOrdinal 2024 11 20)) =
      .ok ⟨2, some 1550, some (popStd [1600, 1550]), some 36⟩ := by rfl
  rw [h1, popStd_scenario]

/-! ## Deduplicator lemmas -/

theorem dedupeAux_ext (l : List Perf) :
    ∀ s1 s2 : List (Option ℤ × String × Option ℚ),
      (∀ k, k ∈ s1 ↔ k ∈ s2) → dedupeAux s1 l = dedupeAux s2 l := by
  induction l with
  | nil => intro s1 s2 _; rfl
  | cons p rest ih =>
    intro s1 s2 h
    unfold dedupeAux
    by_cases hk : dkey p ∈ s1
    · rw [if_pos hk, if_pos ((h _).mp hk)]
      exact ih s1 s2 h
    · rw [if_neg hk, if_neg (fun hc => hk ((h _).mpr hc))]
      congr 1
      exact ih _ _ (fun k => by simp [List.mem_cons, h k])

theorem dedupeAux_cons (seen : List (Option ℤ × String × Option ℚ))
    (p : Perf) (rest : List Perf) :
    dedupeAux seen (p :: rest) =
      if dkey p ∈ seen then dedupeAux seen rest
      else p :: dedupeAux (dkey p :: seen) rest := rfl

theorem dedupeAux_filter_of_mem (l : List Perf) :
    ∀ (seen : List (Option ℤ × String × Option ℚ))
      (k : Option ℤ × String × Option ℚ), k ∈ seen →
      dedupeAux seen (l.filter fun q => decide (dkey q ≠ k)) =
        dedupeAux seen l := by
  induction l with
  | nil => intro seen k _; rfl
  | cons p rest ih =>
    intro seen k hk
    by_cases hpk : dkey p = k
    · rw [List.filter_cons_of_neg (by simp [hpk])]
      rw [dedupeAux_cons, if_pos (hpk ▸ hk)]
      exact ih seen k hk
    · rw [List.filter_cons_of_pos (by simp [hpk])]
      rw [dedupeAux_cons, dedupeAux_cons]
      by_cases hmem : dkey p ∈ seen
      · rw [if_pos hmem, if_pos hmem]
        exact ih seen k hk
      · rw [if_neg hmem, if_neg hmem]
        congr 1
        exact ih (dkey p :: seen) k (List.mem_cons.mpr (Or.inr hk))

theorem dedupeAux_cons_notin (l : List Perf) :
    ∀ (seen : List (Option ℤ × String × Option ℚ))
      (k : Option ℤ × String × Option ℚ), (∀ q ∈ l, dkey q ≠ k) →
      dedupeAux (k :: seen) l = dedupeAux seen l := by
  induction l with
  | nil => intro seen k _; rfl
  | cons p rest ih =>
    intro seen k hno
    have hpk : dkey p ≠ k := hno p (List.mem_cons_self _ _)
    unfold dedupeAux
    by_cases hmem : dkey p ∈ seen
    · rw [if_pos (List.mem_cons.mpr (Or.inr hmem)), if_pos hmem]
      exact ih seen k (fun q hq => hno q (List.mem_cons.mpr (Or.inr hq)))
    · rw [if_neg (by simp [hpk, hmem]), if_neg hmem]
      congr 1
      rw [dedupeAux_ext rest (dkey p :: k :: seen) (k :: dkey p :: seen)
        (fun x => by simp [List.mem_cons]; tauto)]
      exact ih (dkey p :: seen) k
        (fun q hq => hno q (List.mem_cons.mpr (Or.inr hq)))

theorem dedupeAux_sublist (l : List Perf) :
    ∀ seen, (dedupeAux seen l).Sublist l := by
  induction l with
  | nil => intro seen; exact List.Sublist.refl []
  | cons p rest ih =>
    intro seen
    unfold dedupeAux
    by_cases hmem : dkey p ∈ seen
    · rw [if_pos hmem]
      exact (ih seen).trans (List.sublist_cons_self p rest)
    · rw [if_neg hmem]
      exact (ih (dkey p :: seen)).cons₂ p

/-- Two identical records (same date 2024-01-01, same section `"8k"`, same
time 1500) and a third differing only in time. -/
def perfA : Perf :=
  ⟨some 1500, some (toOrdinal 2024 1 1), "8k", "", none⟩

/-- A record identical to `perfA` except for the time, 1501. -/
def perfC : Perf :=
  ⟨some 1501, some (toOrdinal 2024 1 1), "8k", "", none⟩

/-- C4: the Deduplicator keeps, in original order, the first record of each
key and drops every later record with an identical key: it maps `[]` to
`[]`, satisfies the first-occurrence recurrence, returns an
order-preserving subsequence, and sends `[A, B, C]` with `B` identical to
`A` to `[A, C]`. -/
theorem dedupe_cons_eq (p : Perf) (rest : List Perf) :
    dedupe_performances (p :: rest) =
      p :: dedupe_performances
        (rest.filter fun q => decide (dkey q ≠ dkey p)) := by
  show dedupeAux [] (p :: rest) = _
  rw [dedupeAux_cons, if_neg (List.not_mem_nil _)]
  congr 1
  rw [← dedupeAux_filter_of_mem rest [dkey p] (dkey p)
    (List.mem_cons_self _ _)]
  rw [dedupeAux_cons_notin _ [] (dkey p)
    (fun q hq => by
      have := List.of_mem_filter hq
      simpa using this)]
  rfl

theorem roundHalfEven_intCast (m : ℤ) : roundHalfEven (m : ℚ) = m := by
  unfold roundHalfEven
  rw [Int.floor_intCast]
  norm_num

theorem round6_intCast (m : ℤ) : round6 (m : ℚ) = m := by
  unfold round6
  rw [show ((m : ℚ) * 1000000) = ((m * 1000000 : ℤ) : ℚ) by push_cast; ring]
  rw [roundHalfEven_intCast]
  push_cast
  field_simp

theorem dkey_perfC_ne_perfA : dkey perfC ≠ dkey perfA := by
  intro h
  have h2 : (dkey perfC).2.2 = (dkey perfA).2.2 := by rw [h]
  have e1 : (dkey perfC).2.2 = some (1501 : ℚ) := by
    show (Perf.time perfC).map round6 = _
    rw [show Perf.time perfC = some (1501 : ℚ) from rfl]
    rw [show Option.map round6 (some (1501 : ℚ)) = some (round6 1501) from rfl]
    rw [show (1501 : ℚ) = ((1501 : ℤ) : ℚ) by norm_num, round6_intCast]
  have e2 : (dkey perfA).2.2 = some (1500 : ℚ) := by
    show (Perf.time perfA).map round6 = _
    rw [show Perf.time perfA = some (1500 : ℚ) from rfl]
    rw [show Option.map round6 (some (1500 : ℚ)) = some (round6 1500) from rfl]
    rw [show (1500 : ℚ) = ((1500 : ℤ) : ℚ) by norm_num, round6_intCast]
  rw [e1, e2] at h2
  have : (1501 : ℚ) = 1500 := Option.some.inj h2
  norm_num at this

/-- C4: the Deduplicator keeps, in original order, the first record of each
key and drops every later record with an identical key: it maps `[]` to
`[]`, satisfies the first-occurrence recurrence, returns an
order-preserving subsequence, and sends `[A, B, C]` with `B` identical to
`A` to `[A, C]`. -/
theorem dedupe_first_occurrence :
    dedupe_performances [] = [] ∧
    (∀ (p : Perf) (rest : List Perf),
      dedupe_performances (p :: rest) =
        p :: dedupe_performances
          (rest.filter fun q => decide (dkey q ≠ dkey p))) ∧
    (∀ l : List Perf, (dedupe_performances l).Sublist l) ∧
    dedupe_performances [perfA, perfA, perfC] = [perfA, perfC] := by
  refine ⟨rfl, dedupe_cons_eq, fun l => dedupeAux_sublist l [], ?_⟩
  rw [dedupe_cons_eq]
  rw [List.filter_cons_of_neg (by simp)]
  rw [List.filter_cons_of_pos (by simp [dkey_perfC_ne_perfA])]
  rw [List.filter_nil, dedupe_cons_eq, List.filter_nil]
  rfl

/-! ## Days-since-season-record -/

theorem daysSinceOf_sr_none (uniq : List Perf) (nd : Option ℤ)
    (h : listMin (times8k uniq) = none) : daysSinceOf uniq nd = none := by
  unfold daysSinceOf
  rw [h]

theorem daysSinceOf_nd_none (uniq : List Perf)
    : daysSinceOf uniq none = none := by
  unfold daysSinceOf
  cases listMin (times8k uniq) <;> rfl

/-- C5: `daysSinceSeasonRecord` is absent when the cutoff is absent, when
the season record is absent, or when no record holding the season-record
time carries a date; otherwise it equals `cutoff - maxDate` where `maxDate`
is the latest date among the restricted records whose time equals the
season record. -/
theorem days_since_season_record_spec (uniq : List Perf) (nd : Option ℤ) :
    (nd = none → (statsOfPerfs uniq nd).days_since_season_pr = none) ∧
    ((statsOfPerfs uniq nd).sr_time = none →
      (statsOfPerfs uniq nd).days_since_season_pr = none) ∧
    (∀ (d : ℤ) (sr : ℚ), nd = some d →
      (statsOfPerfs uniq nd).sr_time = some sr →
      (srDates (season8k uniq) sr = [] →
        (statsOfPerfs uniq nd).days_since_season_pr = none) ∧
      (srDates (season8k uniq) sr ≠ [] →
        ∃ b ∈ srDates (season8k uniq) sr,
          (∀ x ∈ srDates (season8k uniq) sr, x ≤ b) ∧
            (statsOfPerfs uniq nd).days_since_season_pr = some (d - b))) := by
  have hdays : (statsOfPerfs uniq nd).days_since_season_pr =
      daysSinceOf uniq nd := rfl
  have hsr : (statsOfPerfs uniq nd).sr_time = listMin (times8k uniq) := rfl
  refine ⟨?_, ?_, ?_⟩
  · rintro rfl
    rw [hdays, daysSinceOf_nd_none]
  · intro h
    rw [hsr] at h
    rw [hdays, daysSinceOf_sr_none uniq nd h]
  · intro d sr hnd hsrv
    rw [hsr] at hsrv
    subst hnd
    have hform : daysSinceOf uniq (some d) =
        match listMax (srDates (season8k uniq) sr) with
        | some best => some (d - best)
        | none => none := by
      unfold daysSinceOf
      rw [hsrv]
    constructor
    · intro hnil
      rw [hdays, hform, hnil]
      rfl
    · intro hne
      cases hmax : listMax (srDates (season8k uniq) sr) with
      | none => exact absurd ((listMax_eq_none _).mp hmax) hne
      | some best =>
        obtain ⟨hmem, hub⟩ := listMax_eq_some _ _ hmax
        refine ⟨best, hmem, hub, ?_⟩
        rw [hdays, hform, hmax]

/-- Witness for the C5 theorem at a concrete record list and cutoff. -/
theorem days_since_season_record_spec_witness :
    ∃ b ∈ srDates (season8k [⟨some 100, some 700000, "8k", "", none⟩]) 100,
      (∀ x ∈ srDates (season8k [⟨some 100, some 700000, "8k", "", none⟩]) 100,
        x ≤ b) ∧
      (statsOfPerfs [⟨some 100, some 700000, "8k", "", none⟩]
        (some 700036)).days_since_season_pr = some (700036 - b) :=
  ((days_since_season_record_spec [⟨some 100, some 700000, "8k", "", none⟩]
      (some 700036)).2.2 700036 100 rfl rfl).2 (by decide)

/-! ## Consistency -/

/-- A history with two championship-distance performances, 1500s and 1510s,
on distinct September 2024 dates. -/
def historySpread : HistoryV :=
  .dict (some [.block ⟨.intYear 2024, some
    [⟨.num 1500, none, none, some "8k", .ok (toOrdinal 2024 9 1)⟩,
     ⟨.num 1510, none, none, some "8k", .ok (toOrdinal 2024 9 8)⟩]⟩])

theorem popVar_spread : popVar [1500, 1510] = 25 := by
  simp [popVar, listMean]
  norm_num

theorem popStd_spread : popStd [1500, 1510] = 5 := by
  unfold popStd
  rw [popVar_spread]
  rw [show ((25 : ℚ) : ℝ) = (5 : ℝ) ^ 2 by norm_num]
  exact Real.sqrt_sq (by norm_num)

/-- C6: the consistency statistic is absent exactly when fewer than two
championship-distance time-present records exist, equals the population
standard deviation of their times when at least two exist, and on the times
1500 and 1510 it evaluates to 5 through the full pipeline. -/
theorem consistency_population_std (uniq : List Perf) (nd : Option ℤ) :
    ((statsOfPerfs uniq nd).consistency = none ↔
      (season8k uniq).length < 2) ∧
    (2 ≤ (season8k uniq).length →
      (statsOfPerfs uniq nd).consistency = some (popStd (times8k uniq))) ∧
    gather_season_stats historySpread 2024 none =
      .ok ⟨2, some 1500, some 5, none⟩ := by
  refine ⟨?_, ?_, ?_⟩
  · by_cases h : 2 ≤ (season8k uniq).length
    · have hc : (statsOfPerfs uniq nd).consistency =
          some (popStd (times8k uniq)) := by
        simp only [statsOfPerfs, if_pos h]
      rw [hc]
      constructor
      · intro hx; exact absurd hx (by simp)
      · intro hx; exact absurd h (by omega)
    · have hc : (statsOfPerfs uniq nd).consistency = none := by
        simp only [statsOfPerfs, if_neg h]
      rw [hc]
      constructor
      · intro _; omega
      · intro _; rfl
  · intro h
    simp only [statsOfPerfs, if_pos h]
  · have h1 : gather_season_stats historySpread 2024 none =
        .ok ⟨2, some 1500, some (popStd [1500, 1510]), none⟩ := by rfl
    rw [h1, popStd_spread]

/-- Witness for the C6 theorem: two concrete records with present times and
championship-distance sections. -/
theorem consistency_population_std_witness :
    (statsOfPerfs [perfA, perfC] none).consistency =
      some (popStd (times8k [perfA, perfC])) :=
  (consistency_population_std [perfA, perfC] none).2.1 (by decide)

/-! ## Totality and the malformed-season-entry exception -/

/-- C7: on a history whose `season_ratings` list contains a non-dict entry,
`gather_season_stats` raises `AttributeError` (from
`season.get('season')`), while `gather_lifetime_pr_before_date` on the very
same history degrades to an absent result. -/
theorem season_stats_attribute_error :
    gather_season_stats (.dict (some [.notDict])) 2024 none =
      .error "AttributeError" ∧
    gather_lifetime_pr_before_date (.dict (some [.notDict])) none = none :=
  ⟨rfl, rfl⟩

/-! ## Accolade Resolver theorems -/

/-- C8: the All-American flag is 1 exactly for a present integer placement
of at most 40, and 0 for an absent or non-integer placement; placements 40
and 41 give 1 and 0. -/
theorem all_american_top40 :
    (∀ p : PlaceVal,
      (all_american p = 1 ↔ ∃ n : ℤ, p = .intP n ∧ n ≤ 40)) ∧
    all_american .absent = 0 ∧ all_american .other = 0 ∧
    all_american (.intP 40) = 1 ∧ all_american (.intP 41) = 0 := by
  refine ⟨?_, rfl, rfl, rfl, rfl⟩
  intro p
  cases p with
  | absent => simp [all_american]
  | other => simp [all_american]
  | intP n =>
    by_cases h : n ≤ 40 <;> simp [all_american, h]

/-! ## Distance Classifier theorems -/

theorem prefOf_iff (as : List Char) :
    ∀ bs, prefOf as bs = true ↔ ∃ t, bs = as ++ t := by
  induction as with
  | nil =>
    intro bs
    simp [prefOf]
  | cons a as ih =>
    intro bs
    cases bs with
    | nil =>
      simp [prefOf]
    | cons b bs =>
      simp only [prefOf, Bool.and_eq_true, decide_eq_true_eq, ih bs,
        List.cons_append, List.cons.injEq]
      constructor
      · rintro ⟨rfl, t, rfl⟩
        exact ⟨t, rfl, rfl⟩
      · rintro ⟨t, rfl, rfl⟩
        exact ⟨rfl, t, rfl⟩

theorem hasSubList_iff (pat : List Char) :
    ∀ l, hasSubList pat l = true ↔ ∃ u v, l = u ++ pat ++ v := by
  intro l
  induction l with
  | nil =>
    simp only [hasSubList, decide_eq_true_eq]
    constructor
    · rintro rfl
      exact ⟨[], [], rfl⟩
    · rintro ⟨u, v, huv⟩
      have h1 := List.append_eq_nil.mp huv.symm
      have h2 := List.append_eq_nil.mp h1.1
      exact h2.2
  | cons c rest ih =>
    simp only [hasSubList, Bool.or_eq_true, prefOf_iff, ih]
    constructor
    · rintro (⟨t, ht⟩ | ⟨u, v, huv⟩)
      · exact ⟨[], t, by simp [ht]⟩
      · exact ⟨c :: u, v, by simp [huv]⟩
    · rintro ⟨u, v, huv⟩
      cases u with
      | nil =>
        exact Or.inl ⟨v, by simpa using huv⟩
      | cons x u =>
        right
        refine ⟨u, v, ?_⟩
        have := List.cons.injEq c rest x (u ++ pat ++ v) |>.mp ?_
        · exact this.2
        · simpa using huv

/-- C9: `looks_like_8k` is true exactly when the lower-cased label contains
`"8k"` or `"8000"` as a contiguous substring; an absent or empty label gives
false, and the label `"18k"` is classified as championship distance. -/
theorem looks_like_8k_substring :
    (∀ os : Option String, looks_like_8k os = true ↔
      ∃ s, os = some s ∧
        ((∃ u v, (lowerStr s).data = u ++ "8k".data ++ v) ∨
         (∃ u v, (lowerStr s).data = u ++ "8000".data ++ v))) ∧
    looks_like_8k none = false ∧
    looks_like_8k (some "") = false ∧
    looks_like_8k (some "18k") = true := by
  refine ⟨?_, rfl, rfl, rfl⟩
  intro os
  cases os with
  | none => simp [looks_like_8k]
  | some s =>
    by_cases hs : s = ""
    · subst hs
      constructor
      · intro h
        exact absurd h (by simp [looks_like_8k])
      · rintro ⟨s, hss, h⟩
        obtain rfl : "" = s := Option.some.inj hss
        exfalso
        rcases h with ⟨u, v, huv⟩ | ⟨u, v, huv⟩
        · have h1 : ([] : List Char) = u ++ "8k".data ++ v := huv
          have h2 := List.append_eq_nil.mp h1.symm
          have h3 := List.append_eq_nil.mp h2.1
          exact absurd h3.2 (by decide)
        · have h1 : ([] : List Char) = u ++ "8000".data ++ v := huv
          have h2 := List.append_eq_nil.mp h1.symm
          have h3 := List.append_eq_nil.mp h2.1
          exact absurd h3.2 (by decide)
    · simp only [looks_like_8k, if_neg hs, strContainsSub,
        Bool.or_eq_true, hasSubList_iff]
      constructor
      · intro h
        exact ⟨s, rfl, h⟩
      · rintro ⟨s2, hss, h⟩
        have : s2 = s := by injection hss with h2; exact h2.symm
        subst this
        exact h

/-! ## Performance Normalizer theorems -/

/-- A season block holding one raw entry with the numeric time -1. -/
def blockNegTime : SeasonBlockV :=
  .block ⟨.other, some [⟨.num (-1), none, none, some "8k", .absent⟩]⟩

/-- C3, counterexample: the Normalizer performs no sign check, so a raw
numeric time of -1 yields an output record whose time is present and
negative. -/
theorem normalizer_keeps_negative_time :
    (extract_xc_performances_from_season blockNegTime).map Perf.time =
      [some (-1)] ∧ ¬ (0 : ℚ) ≤ -1 :=
  ⟨rfl, by norm_num⟩

/-- C3 (amended): the Normalizer's output time is exactly the parse of the
raw time field — numeric when present; absent (never zero, never an error)
for an absent, non-numeric or unparseable raw value. -/
theorem normalizer_time_passthrough :
    (∀ (tag : SeasonTag) (l : List RawPerf),
      (extract_xc_performances_from_season (.block ⟨tag, some l⟩)).map
          Perf.time = l.map fun r => pyFloat r.time) ∧
    pyFloat .unparseable = none ∧ pyFloat .absent = none ∧
    ∀ q : ℚ, pyFloat .unparseable ≠ some q := by
  refine ⟨?_, rfl, rfl, fun q h => by simp [pyFloat] at h⟩
  intro tag l
  show (List.map normalizeRawPerf l).map Perf.time = _
  rw [List.map_map]
  rfl

/-! ## Pooling every matching season block -/

/-- The year tag of a season entry, ignoring the exception path. -/
def yearOfBlock : SeasonBlockV → Option ℤ
  | .notDict => none
  | .block b => tagYear b.seasonTag

theorem collectSeasonPerfs_cons_block (y : ℤ) (nd : Option ℤ)
    (b : SeasonBlock) (rest : List SeasonBlockV) :
    collectSeasonPerfs y nd (.block b :: rest) =
      match collectSeasonPerfs y nd rest with
      | .error e => .error e
      | .ok there =>
        .ok ((if tagYear b.seasonTag = some y then
          (extract_xc_performances_from_season (.block b)).filter
            (keepBeforeNatDate nd)
          else []) ++ there) := rfl

/-- A first season block for 2024 with one (dateless, timeless) entry. -/
def blockYear1 : SeasonBlockV :=
  .block ⟨.intYear 2024, some [⟨.absent, none, none, some "aaa", .absent⟩]⟩

/-- A second season block for 2024 with one different entry. -/
def blockYear2 : SeasonBlockV :=
  .block ⟨.intYear 2024, some [⟨.absent, none, none, some "bbb", .absent⟩]⟩

/-- C10: the season collection pools the cutoff-filtered performances of
every block whose year tag matches, in block order; with two matching 2024
blocks of one unique performance each, the race count is 2, against 1 when
only the first block is present. -/
theorem season_stats_pools_matching_blocks :
    (∀ (blocks : List SeasonBlockV) (y : ℤ) (nd : Option ℤ),
      (∀ sb ∈ blocks, sb ≠ SeasonBlockV.notDict) →
      collectSeasonPerfs y nd blocks = .ok (blocks.flatMap fun sb =>
        if yearOfBlock sb = some y then
          (extract_xc_performances_from_season sb).filter
            (keepBeforeNatDate nd)
        else [])) ∧
    gather_season_stats (.dict (some [blockYear1, blockYear2])) 2024 none =
      .ok ⟨2, none, none, none⟩ ∧
    gather_season_stats (.dict (some [blockYear1])) 2024 none =
      .ok ⟨1, none, none, none⟩ := by
  refine ⟨?_, rfl, rfl⟩
  intro blocks
  induction blocks with
  | nil => intro y nd _; rfl
  | cons sb rest ih =>
    intro y nd h
    cases sb with
    | notDict => exact absurd rfl (h _ (List.mem_cons_self _ _))
    | block b =>
      have hrest := ih y nd (fun q hq => h q (List.mem_cons.mpr (Or.inr hq)))
      rw [collectSeasonPerfs_cons_block, hrest]
      rw [List.flatMap_cons]
      rfl

/-- Witness for the amended C3 theorem: a numeric and an unparseable raw
time pass through the Normalizer as a present and an absent value. -/
theorem normalizer_time_passthrough_witness :
    (extract_xc_performances_from_season
        (.block ⟨.other, some
          [⟨.num 2, none, none, none, .absent⟩,
           ⟨.unparseable, none, none, none, .absent⟩]⟩)).map Perf.time =
      ([⟨.num 2, none, none, none, .absent⟩,
        ⟨.unparseable, none, none, none, .absent⟩] : List RawPerf).map
        (fun r => pyFloat r.time) :=
  normalizer_time_passthrough.1 .other
    [⟨.num 2, none, none, none, .absent⟩,
     ⟨.unparseable, none, none, none, .absent⟩]

/-- Witness for the C10 theorem at the two concrete 2024 blocks. -/
theorem season_stats_pools_matching_blocks_witness :
    collectSeasonPerfs 2024 none [blockYear1, blockYear2] =
      .ok ([blockYear1, blockYear2].flatMap fun sb =>
        if yearOfBlock sb = some 2024 then
          (extract_xc_performances_from_season sb).filter
            (keepBeforeNatDate none)
        else []) :=
  season_stats_pools_matching_blocks.1 [blockYear1, blockYear2] 2024 none
    (by decide)
